import Mathlib

/-!
# FuzzyPlus watchface: fuzzy-time phrase and detail overlay

A shallow embedding of `src/FuzzyPlus.c`.  The C `int` values are `Int`; C's
truncating `/` and `%` are `Int.tdiv` and `Int.tmod`.  On the domain the
program is used on (`tm_hour` in 0..23, `tm_min` in 0..59) every intermediate
value stays far inside the `int` range, so no wrap-around is modelled.

The eight text layers are a function from the box index to the text the layer
currently shows; `text_layer_set_text` overwrites one index.  The global
variables of the C file (`layers`, `detail_visible`, `testing_index`) are the
fields of `Watch`, threaded explicitly through the handlers.
-/

namespace FuzzyPlus

/-! ## Fonts and text boxes -/

abbrev FONT_HUGE : Nat := 0
abbrev FONT_LARGE : Nat := 1
abbrev FONT_MEDIUM : Nat := 2
abbrev FONT_SMALL : Nat := 3
abbrev FONT_DETAIL : Nat := 4
abbrev FONT_TINY : Nat := 5
abbrev FONT_COUNT : Nat := 6

/-- Text alignment of the platform SDK, as far as the table of boxes uses it. -/
inductive GTextAlignment where
  | GTextAlignmentLeft
  | GTextAlignmentCenter
  | GTextAlignmentRight
  deriving DecidableEq, Repr

/-- Struct to define a text layer. -/
structure TextBox where
  x : Int
  y : Int
  w : Int
  h : Int
  font_index : Nat
  alignment : GTextAlignment
  deriving DecidableEq, Repr

abbrev BOX_COUNT : Nat := 8

abbrev BOX_TOP_DETAIL : Fin BOX_COUNT := ⟨0, by decide⟩
abbrev BOX_LINE1 : Fin BOX_COUNT := ⟨1, by decide⟩
abbrev BOX_LINE2 : Fin BOX_COUNT := ⟨2, by decide⟩
abbrev BOX_LINE3 : Fin BOX_COUNT := ⟨3, by decide⟩
abbrev BOX_BIG_HOUR : Fin BOX_COUNT := ⟨4, by decide⟩
abbrev BOX_BOTTOM_DETAIL : Fin BOX_COUNT := ⟨5, by decide⟩
abbrev BOX_TIME : Fin BOX_COUNT := ⟨6, by decide⟩
abbrev BOX_AM_PM : Fin BOX_COUNT := ⟨7, by decide⟩

/-- TextBox objects to define the text layers. -/
def boxes : List TextBox :=
  [ ⟨0, 0, 144, 28, FONT_SMALL, .GTextAlignmentRight⟩,
    ⟨0, 20, 144, 48, FONT_LARGE, .GTextAlignmentLeft⟩,
    ⟨0, 54, 144, 48, FONT_LARGE, .GTextAlignmentCenter⟩,
    ⟨0, 92, 144, 48, FONT_LARGE, .GTextAlignmentRight⟩,
    ⟨0, 40, 144, 60, FONT_HUGE, .GTextAlignmentCenter⟩,
    ⟨0, 148, 90, 20, FONT_DETAIL, .GTextAlignmentLeft⟩,
    ⟨72, 148, 54, 20, FONT_DETAIL, .GTextAlignmentRight⟩,
    ⟨128, 154, 16, 14, FONT_TINY, .GTextAlignmentLeft⟩ ]

/-- How many minutes around each quarter that need no qualification. -/
def MINUTE_TOLERANCE : Int := 3

/-! ## Program state -/

/-- Text currently shown by each of the `BOX_COUNT` text layers. -/
abbrev Layers := Fin BOX_COUNT → String

/-- The mutable globals of the C file. -/
structure Watch where
  layers : Layers
  detail_visible : Bool
  testing_index : Int

/-- The fields of the C library's `struct tm` that the watchface reads. -/
structure Tm where
  tm_min : Int
  tm_hour : Int
  tm_mday : Int
  tm_wday : Int
  deriving DecidableEq, Repr

/-- The SDK call `text_layer_set_text(layers[i], s)`: layer `i` now shows `s`. -/
def text_layer_set_text (layers : Layers) (i : Fin BOX_COUNT) (s : String) : Layers :=
  fun j => if j = i then s else layers j

/-! ## Testing data -/

def TESTING : Bool := false

def testing_hour : Int := 0

def testing_minutes : List Int :=
  [ 0,
    MINUTE_TOLERANCE,
    MINUTE_TOLERANCE + 1,
    15 - MINUTE_TOLERANCE - 1,
    15,
    15 + MINUTE_TOLERANCE + 1,
    30 - MINUTE_TOLERANCE - 1,
    30,
    30 + MINUTE_TOLERANCE + 1,
    45 - MINUTE_TOLERANCE - 1,
    45,
    45 + MINUTE_TOLERANCE + 1,
    60 - MINUTE_TOLERANCE - 1 ]

def testing_value_count : Int := testing_minutes.length

/-! ## C library functions used by the watchface -/

/-- The C library's `abs` on `int`. -/
def abs_int (x : Int) : Int := if x < 0 then -x else x

/-- The C library's `strlen`: number of characters before the terminator. -/
def strlen (s : String) : Nat := s.length

/-- Decimal digits of a field, left-padded with `pad` to two columns, as the
two-column numeric conversions of `strftime` print it. -/
def two_columns (pad : Char) (v : Int) : String :=
  let digits := String.mk (Nat.toDigits 10 v.natAbs)
  let body := if v < 0 then "-" ++ digits else digits
  if body.length < 2 then String.mk [pad] ++ body else body

/-- Abbreviated English weekday names, indexed by `tm_wday`. -/
def weekday_abbrev : List String :=
  ["Sun", "Mon", "Tue", "Wed", "Thu", "Fri", "Sat"]

/-- Modelled from the spec: the conversion specifications of the platform's
`strftime` (library code, not part of the repository) that `show_time` uses:
abbreviated weekday, zero-padded day of month, space-padded 12-hour hour,
zero-padded minute, lowercase am/pm marker.  An unknown specifier is copied
through. -/
def strftime_conv (c : Char) (tm : Tm) : String :=
  if c = 'a' then
    (if 0 ≤ tm.tm_wday then weekday_abbrev.getD tm.tm_wday.toNat "?" else "?")
  else if c = 'd' then two_columns '0' tm.tm_mday
  else if c = 'l' then
    two_columns ' ' (if Int.tmod tm.tm_hour 12 = 0 then 12 else Int.tmod tm.tm_hour 12)
  else if c = 'M' then two_columns '0' tm.tm_min
  else if c = 'P' then (if tm.tm_hour < 12 then "am" else "pm")
  else String.mk ['%', c]

/-- Expansion of a `strftime` format: `%x` is converted, anything else is copied. -/
def strftime_expand (tm : Tm) : List Char → String
  | [] => ""
  | '%' :: c :: rest => strftime_conv c tm ++ strftime_expand tm rest
  | c :: rest => String.mk [c] ++ strftime_expand tm rest

/-- Modelled from the spec: the platform's `strftime(buf, maxsize, format, tm)`
(library code, not part of the repository), as the text left in `buf`.  When
the expansion and its terminator do not fit in `maxsize` bytes the C library
leaves the buffer unspecified; the model leaves it empty. -/
def strftime (maxsize : Nat) (format : String) (tm : Tm) : String :=
  let s := strftime_expand tm format.data
  if s.length + 1 ≤ maxsize then s else ""

/-! ## The watchface -/

def hour_strings : List String :=
  [ "twelve",
    "one",
    "two",
    "three",
    "four",
    "five",
    "six",
    "seven",
    "eight",
    "nine",
    "ten",
    "eleven" ]

/-- The C function `hour_to_string`: `hour_strings[hour % 12]`.  An index outside
the table (a negative remainder) is an out-of-bounds read, modelled as `none`. -/
def hour_to_string (hour : Int) : Option String :=
  let i := Int.tmod hour 12
  if 0 ≤ i then hour_strings[i.toNat]? else none

/-- The clearing loop at the head of `show_time`:
`for (i = 0; i < BOX_COUNT; ++i) text_layer_set_text(layers[i], "")`. -/
def clear_boxes (layers : Layers) : Layers :=
  (List.finRange BOX_COUNT).foldl (fun l i => text_layer_set_text l i "") layers

/-- The quarter `show_time` works out first, `(tick_time->tm_min + 7) / 15` with
C's truncating division, before it is reduced modulo 4. -/
def quarter_of_minute (tm_min : Int) : Int := Int.tdiv (tm_min + 7) 15

/-- The C function `show_time`, on the globals `w`.  It fails only where
`hour_to_string` reads outside its table. -/
def show_time (tick_time : Tm) (w : Watch) : Option Watch :=
  /- clear out boxes -/
  let layers := clear_boxes w.layers
  /- work out which quarter, and what our offset from that is -/
  let quarter := quarter_of_minute tick_time.tm_min
  let offset := tick_time.tm_min - quarter * 15
  match hour_to_string (if quarter > 2 then tick_time.tm_hour + 1 else tick_time.tm_hour) with
  | none => none
  | some hour_string =>
    let quarter := Int.tmod quarter 4
    /- Indicate if we are outside MINUTE_TOLERANCE of the quarter -/
    let layers :=
      if abs_int offset > MINUTE_TOLERANCE then
        if offset < -MINUTE_TOLERANCE then
          text_layer_set_text layers BOX_TOP_DETAIL "getting on for"
        else
          text_layer_set_text layers BOX_TOP_DETAIL "gone"
      else layers
    /- display the time to the nearest quarter -/
    let layers :=
      if quarter ≠ 0 then
        let layers := text_layer_set_text layers BOX_LINE1 (if quarter = 2 then " half" else "quarter")
        let layers := text_layer_set_text layers BOX_LINE2 (if quarter = 3 then "  to" else "past")
        text_layer_set_text layers BOX_LINE3 hour_string
      else
        let short_enough := decide (strlen hour_string < 7)
        text_layer_set_text layers (if short_enough then BOX_BIG_HOUR else BOX_LINE2) hour_string
    /- optionally display digital time -/
    let layers :=
      if w.detail_visible then
        let date_str := strftime 7 "%a %d" tick_time
        let layers := text_layer_set_text layers BOX_BOTTOM_DETAIL date_str
        let time_str := strftime 6 "%l:%M" tick_time
        let layers := text_layer_set_text layers BOX_TIME time_str
        let am_pm_str := strftime 3 "%P" tick_time
        text_layer_set_text layers BOX_AM_PM am_pm_str
      else layers
    some { w with layers := layers }

/-- The C function `tap_handler`; `time_struct` is what `localtime(time(NULL))`
returned.  Reading `testing_minutes` outside the array is modelled as `none`. -/
def tap_handler (time_struct : Tm) (w : Watch) : Option Watch :=
  /- toggle detail_visible on tap and redisplay -/
  let w : Watch := { w with detail_visible := !w.detail_visible }
  if TESTING then
    if (0 : Int) ≤ w.testing_index then
      match testing_minutes[w.testing_index.toNat]? with
      | none => none
      | some m =>
        let time_struct : Tm := { time_struct with tm_hour := testing_hour, tm_min := m }
        let w : Watch := { w with testing_index := Int.tmod (w.testing_index + 1) testing_value_count }
        show_time time_struct w
    else none
  else
    show_time time_struct w

/-- The C function `handle_minute_tick`. -/
def handle_minute_tick (tick_time : Tm) (w : Watch) : Option Watch :=
  show_time tick_time { w with detail_visible := false }

/-! ## The phrase builder as the specification words it -/

/-- Phrase layout of specification section 4.1, steps 1 to 7, for comparison
with what `show_time` writes: slot texts as a function of hour and minute. -/
def spec_phrase_layout (hour minute : Int) : Layers :=
  let quarter := (minute + 7) / 15
  let offset := minute - quarter * 15
  let phrased := if quarter = 3 ∨ quarter = 4 then hour + 1 else hour
  let word := hour_strings.getD (phrased % 12).toNat ""
  let quarter := quarter % 4
  let qualifier :=
    if offset < -3 then "getting on for" else if offset > 3 then "gone" else ""
  fun i =>
    if i = BOX_TOP_DETAIL then qualifier
    else if quarter ≠ 0 then
      if i = BOX_LINE1 then (if quarter = 2 then " half" else "quarter")
      else if i = BOX_LINE2 then (if quarter = 3 then "  to" else "past")
      else if i = BOX_LINE3 then word
      else ""
    else if word.length < 7 then
      (if i = BOX_BIG_HOUR then word else "")
    else
      (if i = BOX_LINE2 then word else "")

/-! ## The detail texts as the specification words them -/

/-- Time text of specification section 4.2: the 12-hour hour right-aligned in two
columns, padded with a space and not a zero, a colon, the minute as two
zero-padded digits. -/
def spec_time_text (hour minute : Int) : String :=
  let h12 := (hour + 11) % 12 + 1
  String.mk
    [ if h12 < 10 then ' ' else Nat.digitChar (h12 / 10).toNat,
      Nat.digitChar (h12 % 10).toNat,
      ':',
      Nat.digitChar (minute / 10).toNat,
      Nat.digitChar (minute % 10).toNat ]

/-- The am/pm marker of specification section 4.2: hours 0..11 are "am", hours
12..23 are "pm". -/
def spec_am_pm_text (hour : Int) : String :=
  if hour ≤ 11 then "am" else "pm"

/-! ## Vocabulary of the statements -/

/-- Every layer blank, as on a freshly created window. -/
def blank : Layers := fun _ => ""

/-- The globals at start-up. -/
def init_watch : Watch := ⟨blank, false, 0⟩

/-! ## Shared lemmas -/

theorem set_apply (l : Layers) (i j : Fin BOX_COUNT) (s : String) :
    text_layer_set_text l i s j = if j = i then s else l j := rfl

theorem abs_int_gt_tolerance (x : Int) :
    3 < abs_int x ↔ (x < -3 ∨ 3 < x) := by
  unfold abs_int
  split_ifs <;> omega

theorem clear_boxes_eq (l : Layers) : clear_boxes l = blank := by
  funext i
  fin_cases i <;> rfl

/-- What `show_time` leaves in every layer, once the hour word has been looked up. -/
theorem show_time_layers (t : Tm) (w : Watch) (word : String)
    (hw : hour_to_string
      (if quarter_of_minute t.tm_min > 2 then t.tm_hour + 1 else t.tm_hour) = some word) :
    ∃ w2 : Watch, show_time t w = some w2 ∧
      w2.detail_visible = w.detail_visible ∧ w2.testing_index = w.testing_index ∧
      w2.layers BOX_TOP_DETAIL =
        (if t.tm_min - quarter_of_minute t.tm_min * 15 < -3 then "getting on for"
         else if t.tm_min - quarter_of_minute t.tm_min * 15 > 3 then "gone" else "") ∧
      (Int.tmod (quarter_of_minute t.tm_min) 4 ≠ 0 →
        w2.layers BOX_LINE1 =
          (if Int.tmod (quarter_of_minute t.tm_min) 4 = 2 then " half" else "quarter") ∧
        w2.layers BOX_LINE2 =
          (if Int.tmod (quarter_of_minute t.tm_min) 4 = 3 then "  to" else "past") ∧
        w2.layers BOX_LINE3 = word ∧ w2.layers BOX_BIG_HOUR = "") ∧
      (Int.tmod (quarter_of_minute t.tm_min) 4 = 0 →
        w2.layers BOX_LINE1 = "" ∧ w2.layers BOX_LINE3 = "" ∧
        (strlen word < 7 → w2.layers BOX_BIG_HOUR = word ∧ w2.layers BOX_LINE2 = "") ∧
        (¬ strlen word < 7 → w2.layers BOX_LINE2 = word ∧ w2.layers BOX_BIG_HOUR = "")) ∧
      (w.detail_visible = false →
        w2.layers BOX_BOTTOM_DETAIL = "" ∧ w2.layers BOX_TIME = "" ∧
        w2.layers BOX_AM_PM = "") ∧
      (w.detail_visible = true →
        w2.layers BOX_BOTTOM_DETAIL = strftime 7 "%a %d" t ∧
        w2.layers BOX_TIME = strftime 6 "%l:%M" t ∧
        w2.layers BOX_AM_PM = strftime 3 "%P" t) := by
  simp only [show_time, hw, clear_boxes_eq]
  generalize Int.tmod (quarter_of_minute t.tm_min) 4 = q
  generalize t.tm_min - quarter_of_minute t.tm_min * 15 = off
  refine ⟨_, rfl, rfl, rfl, ?_⟩
  have hab := abs_int_gt_tolerance off
  by_cases h1 : off < -3 <;> by_cases h2 : off > 3 <;> by_cases hq : q = 0 <;>
    by_cases hs : strlen word < 7 <;> cases hd : w.detail_visible <;>
    first
      | omega
      | simp +decide [set_apply, blank, hab, h1, h2, hq, hs, MINUTE_TOLERANCE]

/-- Every entry of the word table is non-empty and shorter than seven characters. -/
theorem hour_strings_short : ∀ s ∈ hour_strings, s ≠ "" ∧ strlen s < 7 := by
  decide

/-- On a non-negative argument `hour_to_string` returns the table entry at the
remainder modulo 12. -/
theorem hour_to_string_some (a : Int) (h0 : 0 ≤ a) :
    ∃ word, hour_to_string a = some word ∧
      hour_strings[(a % 12).toNat]? = some word ∧ word ≠ "" ∧ strlen word < 7 := by
  have hlt : (a % 12).toNat < hour_strings.length := by
    have : hour_strings.length = 12 := rfl
    omega
  have hnn : (0 : Int) ≤ a % 12 := by omega
  refine ⟨hour_strings[(a % 12).toNat], ?_, ?_, ?_⟩
  · unfold hour_to_string
    simp only [Int.tmod_eq_emod h0 (by norm_num : (0 : Int) ≤ 12), hnn, if_true]
    exact List.getElem?_eq_getElem hlt
  · exact List.getElem?_eq_getElem hlt
  · exact hour_strings_short _ (List.getElem_mem _)

/-- On minutes 0..59 the truncating division of the code is the floor division. -/
theorem quarter_of_minute_eq (m : Int) (h0 : 0 ≤ m) :
    quarter_of_minute m = (m + 7) / 15 := by
  unfold quarter_of_minute
  exact Int.tdiv_eq_ediv (by omega) (by norm_num)

theorem tmod_quarter_eq (m : Int) (h0 : 0 ≤ m) :
    Int.tmod (quarter_of_minute m) 4 = ((m + 7) / 15) % 4 := by
  rw [quarter_of_minute_eq m h0]
  exact Int.tmod_eq_emod (by omega) (by norm_num)

/-- The frame `show_time` produces for a time in the domain, slot by slot, with
the quarter written as the floor division `(tm_min + 7) / 15`. -/
theorem show_time_frame (t : Tm) (w : Watch)
    (hh : 0 ≤ t.tm_hour ∧ t.tm_hour ≤ 23) (hm : 0 ≤ t.tm_min ∧ t.tm_min ≤ 59) :
    ∃ (word : String) (w2 : Watch),
      hour_to_string
        (if quarter_of_minute t.tm_min > 2 then t.tm_hour + 1 else t.tm_hour) = some word ∧
      hour_strings[((if 2 < (t.tm_min + 7) / 15 then t.tm_hour + 1
        else t.tm_hour) % 12).toNat]? = some word ∧
      word ≠ "" ∧ strlen word < 7 ∧
      show_time t w = some w2 ∧
      w2.detail_visible = w.detail_visible ∧ w2.testing_index = w.testing_index ∧
      w2.layers BOX_TOP_DETAIL =
        (if t.tm_min - (t.tm_min + 7) / 15 * 15 < -3 then "getting on for"
         else if t.tm_min - (t.tm_min + 7) / 15 * 15 > 3 then "gone" else "") ∧
      (((t.tm_min + 7) / 15) % 4 ≠ 0 →
        w2.layers BOX_LINE1 = (if ((t.tm_min + 7) / 15) % 4 = 2 then " half" else "quarter") ∧
        w2.layers BOX_LINE2 = (if ((t.tm_min + 7) / 15) % 4 = 3 then "  to" else "past") ∧
        w2.layers BOX_LINE3 = word ∧ w2.layers BOX_BIG_HOUR = "") ∧
      (((t.tm_min + 7) / 15) % 4 = 0 →
        w2.layers BOX_LINE1 = "" ∧ w2.layers BOX_LINE3 = "" ∧
        w2.layers BOX_BIG_HOUR = word ∧ w2.layers BOX_LINE2 = "") ∧
      (w.detail_visible = false →
        w2.layers BOX_BOTTOM_DETAIL = "" ∧ w2.layers BOX_TIME = "" ∧
        w2.layers BOX_AM_PM = "") ∧
      (w.detail_visible = true →
        w2.layers BOX_BOTTOM_DETAIL = strftime 7 "%a %d" t ∧
        w2.layers BOX_TIME = strftime 6 "%l:%M" t ∧
        w2.layers BOX_AM_PM = strftime 3 "%P" t) := by
  have hq := quarter_of_minute_eq t.tm_min hm.1
  have hr := tmod_quarter_eq t.tm_min hm.1
  have ha : (0 : Int) ≤ (if quarter_of_minute t.tm_min > 2 then t.tm_hour + 1
      else t.tm_hour) := by
    split_ifs <;> omega
  obtain ⟨word, hw, htab, hne, hlen⟩ := hour_to_string_some _ ha
  obtain ⟨w2, hs, hd, hi, hT, hA, hB, hF, hG⟩ := show_time_layers t w word hw
  rw [hq] at hT
  rw [hr] at hA hB
  rw [hq] at htab
  refine ⟨word, w2, hw, htab, hne, hlen, hs, hd, hi, hT, hA, ?_, hF, hG⟩
  intro h0
  obtain ⟨a, b, c, -⟩ := hB h0
  exact ⟨a, b, c hlen⟩

/-- On its domain `show_time` writes into the five phrase slots what section 4.1
of the specification prescribes, whatever the state it starts from. -/
theorem show_time_refines_spec (t : Tm) (w : Watch)
    (hh : 0 ≤ t.tm_hour ∧ t.tm_hour ≤ 23) (hm : 0 ≤ t.tm_min ∧ t.tm_min ≤ 59) :
    ∃ w2 : Watch, show_time t w = some w2 ∧
      w2.detail_visible = w.detail_visible ∧ w2.testing_index = w.testing_index ∧
      w2.layers BOX_TOP_DETAIL = spec_phrase_layout t.tm_hour t.tm_min BOX_TOP_DETAIL ∧
      w2.layers BOX_LINE1 = spec_phrase_layout t.tm_hour t.tm_min BOX_LINE1 ∧
      w2.layers BOX_LINE2 = spec_phrase_layout t.tm_hour t.tm_min BOX_LINE2 ∧
      w2.layers BOX_LINE3 = spec_phrase_layout t.tm_hour t.tm_min BOX_LINE3 ∧
      w2.layers BOX_BIG_HOUR = spec_phrase_layout t.tm_hour t.tm_min BOX_BIG_HOUR := by
  obtain ⟨word, w2, -, htab, -, hlen, hs, hd, hi, hT, hA, hB, -, -⟩ :=
    show_time_frame t w hh hm
  have hword : hour_strings.getD
      ((if (t.tm_min + 7) / 15 = 3 ∨ (t.tm_min + 7) / 15 = 4 then t.tm_hour + 1
        else t.tm_hour) % 12).toNat "" = word := by
    have hc : (if (t.tm_min + 7) / 15 = 3 ∨ (t.tm_min + 7) / 15 = 4 then t.tm_hour + 1
        else t.tm_hour) = (if 2 < (t.tm_min + 7) / 15 then t.tm_hour + 1
        else t.tm_hour) := by
      split_ifs <;> first | rfl | omega
    rw [hc, List.getD_eq_getElem?_getD, htab]
    rfl
  have hlen2 : word.length < 7 := hlen
  refine ⟨w2, hs, hd, hi, ?_, ?_⟩
  · rw [hT]
    simp +decide only [spec_phrase_layout, if_true]
  · by_cases h0 : ((t.tm_min + 7) / 15) % 4 = 0
    · obtain ⟨a, b, c, d⟩ := hB h0
      rw [a, b, c, d]
      simp only [spec_phrase_layout, hword]
      simp +decide [h0, hlen2]
    · obtain ⟨a, b, c, d⟩ := hA h0
      rw [a, b, c, d]
      simp only [spec_phrase_layout, hword]
      simp +decide [h0]

/-! ## Slot exclusivity and the qualifier -/

/-- C1: for every hour in 0..23 and minute in 0..59, in the frame `show_time`
produces the non-empty slots among Line1, Line2, Line3 and BigHour are exactly
Line1, Line2 and Line3 together, or BigHour alone, or Line2 alone. -/
theorem show_time_slot_exclusivity (t : Tm) (w : Watch)
    (hh : 0 ≤ t.tm_hour ∧ t.tm_hour ≤ 23) (hm : 0 ≤ t.tm_min ∧ t.tm_min ≤ 59) :
    ∃ w2 : Watch, show_time t w = some w2 ∧
      ((w2.layers BOX_LINE1 ≠ "" ∧ w2.layers BOX_LINE2 ≠ "" ∧
          w2.layers BOX_LINE3 ≠ "" ∧ w2.layers BOX_BIG_HOUR = "") ∨
       (w2.layers BOX_LINE1 = "" ∧ w2.layers BOX_LINE2 = "" ∧
          w2.layers BOX_LINE3 = "" ∧ w2.layers BOX_BIG_HOUR ≠ "") ∨
       (w2.layers BOX_LINE1 = "" ∧ w2.layers BOX_LINE2 ≠ "" ∧
          w2.layers BOX_LINE3 = "" ∧ w2.layers BOX_BIG_HOUR = "")) := by
  obtain ⟨word, w2, -, -, hne, -, hs, -, -, -, hA, hB, -, -⟩ := show_time_frame t w hh hm
  refine ⟨w2, hs, ?_⟩
  by_cases h0 : ((t.tm_min + 7) / 15) % 4 = 0
  · obtain ⟨a, b, c, d⟩ := hB h0
    right; left
    exact ⟨a, d, b, by rw [c]; exact hne⟩
  · obtain ⟨a, b, c, d⟩ := hA h0
    left
    refine ⟨?_, ?_, by rw [c]; exact hne, d⟩
    · rw [a]; split_ifs <;> decide
    · rw [b]; split_ifs <;> decide

theorem show_time_slot_exclusivity_witness :
    ((0 : Int) ≤ 3 ∧ (3 : Int) ≤ 23) ∧ ((0 : Int) ≤ 48 ∧ (48 : Int) ≤ 59) ∧
    ∃ w2 : Watch, show_time ⟨48, 3, 5, 0⟩ init_watch = some w2 ∧
      ((w2.layers BOX_LINE1 ≠ "" ∧ w2.layers BOX_LINE2 ≠ "" ∧
          w2.layers BOX_LINE3 ≠ "" ∧ w2.layers BOX_BIG_HOUR = "") ∨
       (w2.layers BOX_LINE1 = "" ∧ w2.layers BOX_LINE2 = "" ∧
          w2.layers BOX_LINE3 = "" ∧ w2.layers BOX_BIG_HOUR ≠ "") ∨
       (w2.layers BOX_LINE1 = "" ∧ w2.layers BOX_LINE2 ≠ "" ∧
          w2.layers BOX_LINE3 = "" ∧ w2.layers BOX_BIG_HOUR = "")) :=
  ⟨by decide, by decide,
    show_time_slot_exclusivity ⟨48, 3, 5, 0⟩ init_watch (by decide) (by decide)⟩

/-- C2: for every hour in 0..23 and minute in 0..59, with quarter the integer
quotient of minute + 7 by 15 and offset = minute - 15 * quarter, `show_time`
sets TopDetail to "getting on for" when offset is below -3, to "gone" when it
is above 3 and leaves it empty otherwise; so TopDetail is empty exactly when
the absolute value of minute - 15 * quarter is at most 3. -/
theorem show_time_top_detail (t : Tm) (w : Watch)
    (hh : 0 ≤ t.tm_hour ∧ t.tm_hour ≤ 23) (hm : 0 ≤ t.tm_min ∧ t.tm_min ≤ 59) :
    ∃ w2 : Watch, show_time t w = some w2 ∧
      quarter_of_minute t.tm_min = (t.tm_min + 7) / 15 ∧
      (t.tm_min - 15 * ((t.tm_min + 7) / 15) < -3 →
        w2.layers BOX_TOP_DETAIL = "getting on for") ∧
      (t.tm_min - 15 * ((t.tm_min + 7) / 15) > 3 →
        w2.layers BOX_TOP_DETAIL = "gone") ∧
      (¬ t.tm_min - 15 * ((t.tm_min + 7) / 15) < -3 →
        ¬ t.tm_min - 15 * ((t.tm_min + 7) / 15) > 3 →
        w2.layers BOX_TOP_DETAIL = "") ∧
      (w2.layers BOX_TOP_DETAIL = "" ↔ |t.tm_min - 15 * ((t.tm_min + 7) / 15)| ≤ 3) := by
  obtain ⟨word, w2, -, -, -, -, hs, -, -, hT, -, -, -, -⟩ := show_time_frame t w hh hm
  refine ⟨w2, hs, quarter_of_minute_eq _ hm.1, ?_, ?_, ?_, ?_⟩
  · intro h
    rw [hT, if_pos (by omega)]
  · intro h
    rw [hT, if_neg (by omega), if_pos (by omega)]
  · intro h1 h2
    rw [hT, if_neg (by omega), if_neg (by omega)]
  · rw [hT, abs_le]
    split_ifs with h1 h2
    · constructor
      · intro h; exact absurd h (by decide)
      · intro h; omega
    · constructor
      · intro h; exact absurd h (by decide)
      · intro h; omega
    · constructor
      · intro _; constructor <;> omega
      · intro _; rfl

theorem show_time_top_detail_witness :
    ((0 : Int) ≤ 3 ∧ (3 : Int) ≤ 23) ∧ ((0 : Int) ≤ 11 ∧ (11 : Int) ≤ 59) ∧
    ∃ w2 : Watch, show_time ⟨11, 3, 5, 0⟩ init_watch = some w2 ∧
      quarter_of_minute 11 = ((11 : Int) + 7) / 15 ∧
      ((11 : Int) - 15 * (((11 : Int) + 7) / 15) < -3 →
        w2.layers BOX_TOP_DETAIL = "getting on for") ∧
      ((11 : Int) - 15 * (((11 : Int) + 7) / 15) > 3 →
        w2.layers BOX_TOP_DETAIL = "gone") ∧
      (¬ (11 : Int) - 15 * (((11 : Int) + 7) / 15) < -3 →
        ¬ (11 : Int) - 15 * (((11 : Int) + 7) / 15) > 3 →
        w2.layers BOX_TOP_DETAIL = "") ∧
      (w2.layers BOX_TOP_DETAIL = "" ↔ |(11 : Int) - 15 * (((11 : Int) + 7) / 15)| ≤ 3) :=
  ⟨by decide, by decide,
    show_time_top_detail ⟨11, 3, 5, 0⟩ init_watch (by decide) (by decide)⟩

/-! ## The hour word and where it is shown -/

/-- C3: for every hour in 0..23 and minute in 0..59, the hour word `show_time`
displays (in Line3 off the hour, in BigHour or Line2 on the hour) is the table
entry for (hour + 1) mod 12 when the unreduced quarter is 3 or 4, which is when
minute is at least 38, and the entry for hour mod 12 otherwise; the table runs
0 -> "twelve", 1 -> "one", ..., 11 -> "eleven", and 23:53 to 23:59 show
"twelve". -/
theorem show_time_hour_word (t : Tm) (w : Watch)
    (hh : 0 ≤ t.tm_hour ∧ t.tm_hour ≤ 23) (hm : 0 ≤ t.tm_min ∧ t.tm_min ≤ 59) :
    ∃ (word : String) (w2 : Watch), show_time t w = some w2 ∧
      quarter_of_minute t.tm_min = (t.tm_min + 7) / 15 ∧
      (((t.tm_min + 7) / 15 = 3 ∨ (t.tm_min + 7) / 15 = 4) ↔ 38 ≤ t.tm_min) ∧
      (((t.tm_min + 7) / 15 = 3 ∨ (t.tm_min + 7) / 15 = 4) →
        hour_strings[((t.tm_hour + 1) % 12).toNat]? = some word) ∧
      (¬ ((t.tm_min + 7) / 15 = 3 ∨ (t.tm_min + 7) / 15 = 4) →
        hour_strings[(t.tm_hour % 12).toNat]? = some word) ∧
      (((t.tm_min + 7) / 15) % 4 ≠ 0 → w2.layers BOX_LINE3 = word) ∧
      (((t.tm_min + 7) / 15) % 4 = 0 →
        (w2.layers BOX_BIG_HOUR = word ∧ w2.layers BOX_LINE2 = "") ∨
        (w2.layers BOX_LINE2 = word ∧ w2.layers BOX_BIG_HOUR = "")) ∧
      hour_strings = ["twelve", "one", "two", "three", "four", "five", "six", "seven",
        "eight", "nine", "ten", "eleven"] ∧
      (t.tm_hour = 23 → 53 ≤ t.tm_min → word = "twelve") := by
  obtain ⟨word, w2, -, htab, -, -, hs, -, -, -, hA, hB, -, -⟩ := show_time_frame t w hh hm
  refine ⟨word, w2, hs, quarter_of_minute_eq _ hm.1, by omega, ?_, ?_, ?_, ?_, rfl, ?_⟩
  · intro h
    rw [if_pos (by omega)] at htab
    exact htab
  · intro h
    rw [if_neg (by omega)] at htab
    exact htab
  · intro h
    exact (hA h).2.2.1
  · intro h
    exact Or.inl ⟨(hB h).2.2.1, (hB h).2.2.2⟩
  · intro h23 h53
    rw [if_pos (by omega), h23] at htab
    have h0 : ((((23 : Int) + 1) % 12).toNat) = 0 := by decide
    rw [h0] at htab
    exact (Option.some.inj htab).symm

theorem show_time_hour_word_witness :
    ((0 : Int) ≤ 23 ∧ (23 : Int) ≤ 23) ∧ ((0 : Int) ≤ 55 ∧ (55 : Int) ≤ 59) ∧
    ∃ (word : String) (w2 : Watch), show_time ⟨55, 23, 5, 0⟩ init_watch = some w2 ∧
      quarter_of_minute 55 = ((55 : Int) + 7) / 15 ∧
      ((((55 : Int) + 7) / 15 = 3 ∨ ((55 : Int) + 7) / 15 = 4) ↔ (38 : Int) ≤ 55) ∧
      ((((55 : Int) + 7) / 15 = 3 ∨ ((55 : Int) + 7) / 15 = 4) →
        hour_strings[(((23 : Int) + 1) % 12).toNat]? = some word) ∧
      (¬ (((55 : Int) + 7) / 15 = 3 ∨ ((55 : Int) + 7) / 15 = 4) →
        hour_strings[((23 : Int) % 12).toNat]? = some word) ∧
      ((((55 : Int) + 7) / 15) % 4 ≠ 0 → w2.layers BOX_LINE3 = word) ∧
      ((((55 : Int) + 7) / 15) % 4 = 0 →
        (w2.layers BOX_BIG_HOUR = word ∧ w2.layers BOX_LINE2 = "") ∨
        (w2.layers BOX_LINE2 = word ∧ w2.layers BOX_BIG_HOUR = "")) ∧
      hour_strings = ["twelve", "one", "two", "three", "four", "five", "six", "seven",
        "eight", "nine", "ten", "eleven"] ∧
      ((23 : Int) = 23 → (53 : Int) ≤ 55 → word = "twelve") :=
  ⟨by decide, by decide,
    show_time_hour_word ⟨55, 23, 5, 0⟩ init_watch (by decide) (by decide)⟩

/-- C4: for every hour in 0..23 and minute in 0..59 whose quarter reduced modulo
4 is not 0 (minute in 8..52), `show_time` sets Line1 to " half" when the quarter
is 2 and to "quarter" otherwise, Line2 to "  to" when the quarter is 3 and to
"past" otherwise, Line3 to the phrased hour word, and leaves BigHour empty. -/
theorem show_time_three_lines (t : Tm) (w : Watch)
    (hh : 0 ≤ t.tm_hour ∧ t.tm_hour ≤ 23) (hm : 0 ≤ t.tm_min ∧ t.tm_min ≤ 59) :
    (Int.tmod (quarter_of_minute t.tm_min) 4 ≠ 0 ↔ (8 ≤ t.tm_min ∧ t.tm_min ≤ 52)) ∧
    (Int.tmod (quarter_of_minute t.tm_min) 4 ≠ 0 →
      ∃ (word : String) (w2 : Watch), show_time t w = some w2 ∧
        hour_to_string (if quarter_of_minute t.tm_min > 2 then t.tm_hour + 1
          else t.tm_hour) = some word ∧
        hour_strings[((if 38 ≤ t.tm_min then t.tm_hour + 1
          else t.tm_hour) % 12).toNat]? = some word ∧
        w2.layers BOX_LINE1 = (if quarter_of_minute t.tm_min = 2 then " half" else "quarter") ∧
        w2.layers BOX_LINE2 = (if quarter_of_minute t.tm_min = 3 then "  to" else "past") ∧
        w2.layers BOX_LINE3 = word ∧
        w2.layers BOX_BIG_HOUR = "") := by
  have hq := quarter_of_minute_eq t.tm_min hm.1
  have hr := tmod_quarter_eq t.tm_min hm.1
  refine ⟨by rw [hr]; omega, ?_⟩
  intro h
  obtain ⟨word, w2, hw, htab, -, -, hs, -, -, -, hA, -, -, -⟩ := show_time_frame t w hh hm
  rw [hr] at h
  obtain ⟨a, b, c, d⟩ := hA h
  refine ⟨word, w2, hs, hw, ?_, ?_, ?_, c, d⟩
  · by_cases h38 : 38 ≤ t.tm_min
    · rw [if_pos h38]; rw [if_pos (by omega)] at htab; exact htab
    · rw [if_neg h38]; rw [if_neg (by omega)] at htab; exact htab
  · rw [a, hq]
    by_cases h2 : (t.tm_min + 7) / 15 = 2
    · rw [if_pos h2, if_pos (by omega)]
    · rw [if_neg h2, if_neg (by omega)]
  · rw [b, hq]
    by_cases h3 : (t.tm_min + 7) / 15 = 3
    · rw [if_pos h3, if_pos (by omega)]
    · rw [if_neg h3, if_neg (by omega)]

theorem show_time_three_lines_witness :
    ((0 : Int) ≤ 7 ∧ (7 : Int) ≤ 23) ∧ ((0 : Int) ≤ 30 ∧ (30 : Int) ≤ 59) ∧
    Int.tmod (quarter_of_minute 30) 4 ≠ 0 ∧
    ∃ (word : String) (w2 : Watch), show_time ⟨30, 7, 5, 0⟩ init_watch = some w2 ∧
      hour_to_string (if quarter_of_minute 30 > 2 then (7 : Int) + 1 else 7) = some word ∧
      hour_strings[((if (38 : Int) ≤ 30 then (7 : Int) + 1 else 7) % 12).toNat]? = some word ∧
      w2.layers BOX_LINE1 = (if quarter_of_minute 30 = 2 then " half" else "quarter") ∧
      w2.layers BOX_LINE2 = (if quarter_of_minute 30 = 3 then "  to" else "past") ∧
      w2.layers BOX_LINE3 = word ∧
      w2.layers BOX_BIG_HOUR = "" :=
  ⟨by decide, by decide, by decide,
    (show_time_three_lines ⟨30, 7, 5, 0⟩ init_watch (by decide) (by decide)).2 (by decide)⟩

/-- C5: for every hour in 0..23 and minute in 0..59 whose quarter reduced modulo
4 is 0 (minute at most 7 or at least 53), `show_time` puts the phrased hour word
in BigHour, with Line2 empty, exactly when the word has fewer than 7 characters,
and in Line2, with BigHour empty, otherwise; Line1 and Line3 are empty.  At
03:00 BigHour is "three" and at 11:56 BigHour is "twelve". -/
theorem show_time_hour_alone (t : Tm) (w : Watch)
    (hh : 0 ≤ t.tm_hour ∧ t.tm_hour ≤ 23) (hm : 0 ≤ t.tm_min ∧ t.tm_min ≤ 59) :
    (Int.tmod (quarter_of_minute t.tm_min) 4 = 0 ↔ (t.tm_min ≤ 7 ∨ 53 ≤ t.tm_min)) ∧
    (Int.tmod (quarter_of_minute t.tm_min) 4 = 0 →
      ∃ (word : String) (w2 : Watch), show_time t w = some w2 ∧
        hour_to_string (if quarter_of_minute t.tm_min > 2 then t.tm_hour + 1
          else t.tm_hour) = some word ∧
        ((w2.layers BOX_BIG_HOUR = word ∧ w2.layers BOX_LINE2 = "") ↔ strlen word < 7) ∧
        ((w2.layers BOX_LINE2 = word ∧ w2.layers BOX_BIG_HOUR = "") ↔ ¬ strlen word < 7) ∧
        w2.layers BOX_LINE1 = "" ∧ w2.layers BOX_LINE3 = "" ∧
        (t.tm_hour = 3 → t.tm_min = 0 → w2.layers BOX_BIG_HOUR = "three") ∧
        (t.tm_hour = 11 → t.tm_min = 56 → w2.layers BOX_BIG_HOUR = "twelve")) := by
  have hr := tmod_quarter_eq t.tm_min hm.1
  refine ⟨by rw [hr]; omega, ?_⟩
  intro h0
  obtain ⟨word, w2, hw, htab, hne, hlen, hs, -, -, -, -, hF, -, -⟩ :=
    show_time_frame t w hh hm
  obtain ⟨w3, hs3, -, -, -, -, hB, -, -⟩ := show_time_layers t w word hw
  have e : w3 = w2 := Option.some.inj (hs3.symm.trans hs)
  subst e
  obtain ⟨a, b, c, d⟩ := hB h0
  refine ⟨word, w3, hs, hw, ?_, ?_, a, b, ?_, ?_⟩
  · constructor
    · rintro ⟨h1, h2⟩
      by_contra hn
      exact hne ((d hn).1.symm.trans h2)
    · exact c
  · constructor
    · rintro ⟨h1, h2⟩ hl
      exact hne ((c hl).1.symm.trans h2)
    · exact d
  · intro h3 hz
    rw [(c hlen).1]
    rw [hz, h3] at htab
    exact Option.some.inj (htab.symm.trans (by decide))
  · intro h11 h56
    rw [(c hlen).1]
    rw [h56, h11] at htab
    exact Option.some.inj (htab.symm.trans (by decide))

theorem show_time_hour_alone_witness :
    ((0 : Int) ≤ 11 ∧ (11 : Int) ≤ 23) ∧ ((0 : Int) ≤ 56 ∧ (56 : Int) ≤ 59) ∧
    Int.tmod (quarter_of_minute 56) 4 = 0 ∧
    ∃ (word : String) (w2 : Watch), show_time ⟨56, 11, 5, 0⟩ init_watch = some w2 ∧
      hour_to_string (if quarter_of_minute 56 > 2 then (11 : Int) + 1 else 11) = some word ∧
      ((w2.layers BOX_BIG_HOUR = word ∧ w2.layers BOX_LINE2 = "") ↔ strlen word < 7) ∧
      ((w2.layers BOX_LINE2 = word ∧ w2.layers BOX_BIG_HOUR = "") ↔ ¬ strlen word < 7) ∧
      w2.layers BOX_LINE1 = "" ∧ w2.layers BOX_LINE3 = "" ∧
      ((11 : Int) = 3 → (56 : Int) = 0 → w2.layers BOX_BIG_HOUR = "three") ∧
      ((11 : Int) = 11 → (56 : Int) = 56 → w2.layers BOX_BIG_HOUR = "twelve") :=
  ⟨by decide, by decide, by decide,
    (show_time_hour_alone ⟨56, 11, 5, 0⟩ init_watch (by decide) (by decide)).2 (by decide)⟩

/-- C6, as the code has it: for every hour in 0..23 and minute in 0..59 whose
quarter reduced modulo 4 is 0, whichever of the twelve table words the phrased
hour word is ("twelve", "three", "seven", "eight" and "eleven" as much as "one",
"two", "four", "five", "six", "nine" and "ten"), `show_time` places it in
BigHour and leaves Line2 empty. -/
theorem show_time_hour_always_big (t : Tm) (w : Watch)
    (hh : 0 ≤ t.tm_hour ∧ t.tm_hour ≤ 23) (hm : 0 ≤ t.tm_min ∧ t.tm_min ≤ 59)
    (h0 : Int.tmod (quarter_of_minute t.tm_min) 4 = 0) :
    ∃ (word : String) (w2 : Watch), show_time t w = some w2 ∧
      hour_to_string (if quarter_of_minute t.tm_min > 2 then t.tm_hour + 1
        else t.tm_hour) = some word ∧
      word ∈ ["twelve", "three", "seven", "eight", "eleven",
        "one", "two", "four", "five", "six", "nine", "ten"] ∧
      w2.layers BOX_BIG_HOUR = word ∧ w2.layers BOX_LINE2 = "" := by
  obtain ⟨word, w2, hw, htab, -, -, hs, -, -, -, -, hB, -, -⟩ := show_time_frame t w hh hm
  rw [tmod_quarter_eq t.tm_min hm.1] at h0
  obtain ⟨-, -, c, d⟩ := hB h0
  refine ⟨word, w2, hs, hw, ?_, c, d⟩
  have hmem : word ∈ hour_strings := List.getElem?_mem htab
  revert hmem
  have hall : ∀ s ∈ hour_strings, s ∈ ["twelve", "three", "seven", "eight", "eleven",
      "one", "two", "four", "five", "six", "nine", "ten"] := by decide
  exact hall word

theorem show_time_hour_always_big_witness :
    ((0 : Int) ≤ 7 ∧ (7 : Int) ≤ 23) ∧ ((0 : Int) ≤ 2 ∧ (2 : Int) ≤ 59) ∧
    Int.tmod (quarter_of_minute 2) 4 = 0 ∧
    ∃ (word : String) (w2 : Watch), show_time ⟨2, 7, 5, 0⟩ init_watch = some w2 ∧
      hour_to_string (if quarter_of_minute 2 > 2 then (7 : Int) + 1 else 7) = some word ∧
      word ∈ ["twelve", "three", "seven", "eight", "eleven",
        "one", "two", "four", "five", "six", "nine", "ten"] ∧
      w2.layers BOX_BIG_HOUR = word ∧ w2.layers BOX_LINE2 = "" :=
  ⟨by decide, by decide, by decide,
    show_time_hour_always_big ⟨2, 7, 5, 0⟩ init_watch (by decide) (by decide) (by decide)⟩

/-- C6 fails as stated: at 03:00 the quarter is 0 and the phrased hour word is
"three", one of the words said to go to Line2, yet `show_time` shows it in
BigHour and leaves Line2 empty. -/
theorem show_time_three_not_in_line2 :
    Int.tmod (quarter_of_minute 0) 4 = 0 ∧
    hour_to_string (if quarter_of_minute 0 > 2 then (3 : Int) + 1 else 3) = some "three" ∧
    ∃ w2 : Watch, show_time ⟨0, 3, 5, 0⟩ init_watch = some w2 ∧
      w2.layers BOX_BIG_HOUR = "three" ∧ w2.layers BOX_LINE2 = "" ∧
      ¬ (w2.layers BOX_LINE2 = "three" ∧ w2.layers BOX_BIG_HOUR = "") :=
  ⟨by decide, by decide, _, rfl, by decide, by decide, by decide⟩

/-! ## Rounding to the quarter -/

/-- C7, as the code has it: the quarter `show_time` computes as (minute + 7) / 15
with integer division, before reduction modulo 4, rounds minute 7 to quarter 0,
minute 22 to quarter 1, minute 37 to quarter 2 and minute 52 to quarter 3; the
minutes 8, 23, 38 and 53 are the first that round to quarters 1, 2, 3 and 4. -/
theorem quarter_of_minute_boundaries :
    quarter_of_minute 7 = 0 ∧ quarter_of_minute 22 = 1 ∧
    quarter_of_minute 37 = 2 ∧ quarter_of_minute 52 = 3 ∧
    quarter_of_minute 8 = 1 ∧ quarter_of_minute 23 = 2 ∧
    quarter_of_minute 38 = 3 ∧ quarter_of_minute 53 = 4 ∧
    (∀ m : Int, 0 ≤ m → m ≤ 59 →
      (quarter_of_minute m = 1 → 8 ≤ m) ∧ (quarter_of_minute m = 2 → 23 ≤ m) ∧
      (quarter_of_minute m = 3 → 38 ≤ m) ∧ (quarter_of_minute m = 4 → 53 ≤ m)) := by
  refine ⟨by decide, by decide, by decide, by decide, by decide, by decide, by decide,
    by decide, ?_⟩
  intro m h0 h59
  rw [quarter_of_minute_eq m h0]
  refine ⟨?_, ?_, ?_, ?_⟩ <;> intro h <;> omega

/-- C7 fails as stated: the quarter computed for minute 7 is not 1, for minute 22
not 2, for minute 37 not 3 and for minute 52 not 4. -/
theorem quarter_of_minute_not_rounded_up :
    ¬ (quarter_of_minute 7 = 1 ∧ quarter_of_minute 22 = 2 ∧
      quarter_of_minute 37 = 3 ∧ quarter_of_minute 52 = 4) ∧
    quarter_of_minute 7 ≠ 1 ∧ quarter_of_minute 22 ≠ 2 ∧
    quarter_of_minute 37 ≠ 3 ∧ quarter_of_minute 52 ≠ 4 := by
  decide

/-! ## The scenario 03:48 -/

/-- C8, as the code has it: for the input time 03:48 `show_time` produces
Line1 = "quarter", Line2 = "  to", Line3 = "four" and an empty TopDetail, the
offset of 3 minutes being within the tolerance. -/
theorem show_time_0348 (mday wday : Int) (w : Watch) :
    ∃ w2 : Watch, show_time ⟨48, 3, mday, wday⟩ w = some w2 ∧
      w2.layers BOX_LINE1 = "quarter" ∧ w2.layers BOX_LINE2 = "  to" ∧
      w2.layers BOX_LINE3 = "four" ∧ w2.layers BOX_TOP_DETAIL = "" ∧
      w2.layers BOX_BIG_HOUR = "" := by
  obtain ⟨w2, hs, -, -, hT, hA, -, -, -⟩ :=
    show_time_layers ⟨48, 3, mday, wday⟩ w "four" (by dsimp only; decide)
  obtain ⟨a, b, c, d⟩ := hA (by dsimp only; decide)
  refine ⟨w2, hs, ?_, ?_, c, ?_, d⟩
  · rw [a]; dsimp only; decide
  · rw [b]; dsimp only; decide
  · rw [hT]; dsimp only; decide

/-- C8 fails as stated: at 03:48, starting from the blank start-up state,
`show_time` does not leave "gone" in TopDetail; TopDetail is empty. -/
theorem show_time_0348_not_gone :
    ¬ ∃ w2 : Watch, show_time ⟨48, 3, 5, 0⟩ init_watch = some w2 ∧
      w2.layers BOX_LINE1 = "quarter" ∧ w2.layers BOX_LINE2 = "  to" ∧
      w2.layers BOX_LINE3 = "four" ∧ w2.layers BOX_TOP_DETAIL = "gone" := by
  rintro ⟨w2, hs, -, -, -, hT⟩
  have hv : ∃ w3 : Watch, show_time ⟨48, 3, 5, 0⟩ init_watch = some w3 ∧
      w3.layers BOX_TOP_DETAIL = "" := ⟨_, rfl, by decide⟩
  obtain ⟨w3, hs3, hT3⟩ := hv
  have e : w3 = w2 := Option.some.inj (hs3.symm.trans hs)
  subst e
  rw [hT3] at hT
  exact absurd hT (by decide)

/-! ## Totality -/

/-- C9: for every hour in 0..23 and minute in 0..59, `show_time` calls
`hour_to_string` with a value in 0..24 whose remainder modulo 12 is a valid
index 0..11 of the 12-entry table, so the lookup succeeds and `show_time`
produces a frame. -/
theorem show_time_total (t : Tm) (w : Watch)
    (hh : 0 ≤ t.tm_hour ∧ t.tm_hour ≤ 23) (hm : 0 ≤ t.tm_min ∧ t.tm_min ≤ 59) :
    (0 ≤ (if quarter_of_minute t.tm_min > 2 then t.tm_hour + 1 else t.tm_hour) ∧
      (if quarter_of_minute t.tm_min > 2 then t.tm_hour + 1 else t.tm_hour) ≤ 24) ∧
    (0 ≤ Int.tmod (if quarter_of_minute t.tm_min > 2 then t.tm_hour + 1 else t.tm_hour) 12 ∧
      Int.tmod (if quarter_of_minute t.tm_min > 2 then t.tm_hour + 1 else t.tm_hour) 12 ≤ 11) ∧
    hour_strings.length = 12 ∧
    (∃ word : String,
      hour_to_string (if quarter_of_minute t.tm_min > 2 then t.tm_hour + 1
        else t.tm_hour) = some word) ∧
    (∃ w2 : Watch, show_time t w = some w2) := by
  obtain ⟨word, w2, hw, -, -, -, hs, -⟩ := show_time_frame t w hh hm
  have ha : (0 : Int) ≤ (if quarter_of_minute t.tm_min > 2 then t.tm_hour + 1
      else t.tm_hour) ∧ (if quarter_of_minute t.tm_min > 2 then t.tm_hour + 1
      else t.tm_hour) ≤ 24 := by
    split_ifs <;> omega
  refine ⟨ha, ?_, rfl, ⟨word, hw⟩, ⟨w2, hs⟩⟩
  rw [Int.tmod_eq_emod ha.1 (by norm_num)]
  omega

theorem show_time_total_witness :
    ((0 : Int) ≤ 23 ∧ (23 : Int) ≤ 23) ∧ ((0 : Int) ≤ 59 ∧ (59 : Int) ≤ 59) ∧
    (0 ≤ (if quarter_of_minute 59 > 2 then (23 : Int) + 1 else 23) ∧
      (if quarter_of_minute 59 > 2 then (23 : Int) + 1 else 23) ≤ 24) ∧
    (0 ≤ Int.tmod (if quarter_of_minute 59 > 2 then (23 : Int) + 1 else 23) 12 ∧
      Int.tmod (if quarter_of_minute 59 > 2 then (23 : Int) + 1 else 23) 12 ≤ 11) ∧
    hour_strings.length = 12 ∧
    (∃ word : String,
      hour_to_string (if quarter_of_minute 59 > 2 then (23 : Int) + 1 else 23) = some word) ∧
    (∃ w2 : Watch, show_time ⟨59, 23, 31, 6⟩ init_watch = some w2) :=
  ⟨by decide, by decide,
    show_time_total ⟨59, 23, 31, 6⟩ init_watch (by decide) (by decide)⟩

/-! ## The minute tick -/

/-- C10: for every controller state and every valid tick time t,
`handle_minute_tick` leaves detail_visible false and shows a phrase-only frame:
TopDetail, Line1, Line2, Line3 and BigHour hold the phrase for (t.hour,
t.minute), which is the layout of specification section 4.1 and what
`show_time` writes for t from any state, and BottomDetail, Time and AmPm are
empty. -/
theorem handle_minute_tick_frame (t : Tm) (w : Watch)
    (hh : 0 ≤ t.tm_hour ∧ t.tm_hour ≤ 23) (hm : 0 ≤ t.tm_min ∧ t.tm_min ≤ 59) :
    ∃ w2 : Watch, handle_minute_tick t w = some w2 ∧
      w2.detail_visible = false ∧
      (∀ i ∈ [BOX_TOP_DETAIL, BOX_LINE1, BOX_LINE2, BOX_LINE3, BOX_BIG_HOUR],
        w2.layers i = spec_phrase_layout t.tm_hour t.tm_min i) ∧
      (∀ (w0 w3 : Watch), show_time t w0 = some w3 →
        ∀ i ∈ [BOX_TOP_DETAIL, BOX_LINE1, BOX_LINE2, BOX_LINE3, BOX_BIG_HOUR],
          w2.layers i = w3.layers i) ∧
      w2.layers BOX_BOTTOM_DETAIL = "" ∧ w2.layers BOX_TIME = "" ∧
      w2.layers BOX_AM_PM = "" := by
  obtain ⟨w2, hs, hd, -, p0, p1, p2, p3, p4⟩ :=
    show_time_refines_spec t { w with detail_visible := false } hh hm
  obtain ⟨word, w2b, -, -, -, -, hsb, -, -, -, -, -, hF, -⟩ :=
    show_time_frame t { w with detail_visible := false } hh hm
  have e : w2b = w2 := Option.some.inj (hsb.symm.trans hs)
  subst e
  obtain ⟨f1, f2, f3⟩ := hF rfl
  have hspec : ∀ i ∈ [BOX_TOP_DETAIL, BOX_LINE1, BOX_LINE2, BOX_LINE3, BOX_BIG_HOUR],
      w2b.layers i = spec_phrase_layout t.tm_hour t.tm_min i := by
    intro i hi
    simp only [List.mem_cons, List.mem_singleton, List.not_mem_nil, or_false] at hi
    rcases hi with rfl | rfl | rfl | rfl | rfl <;> assumption
  refine ⟨w2b, hs, hd, hspec, ?_, f1, f2, f3⟩
  intro w0 w3 h3 i hi
  obtain ⟨w4, hs4, -, -, q0, q1, q2, q3, q4⟩ := show_time_refines_spec t w0 hh hm
  have e4 : w4 = w3 := Option.some.inj (hs4.symm.trans h3)
  subst e4
  rw [hspec i hi]
  simp only [List.mem_cons, List.mem_singleton, List.not_mem_nil, or_false] at hi
  rcases hi with rfl | rfl | rfl | rfl | rfl <;> (symm; assumption)

theorem handle_minute_tick_frame_witness :
    ((0 : Int) ≤ 14 ∧ (14 : Int) ≤ 23) ∧ ((0 : Int) ≤ 30 ∧ (30 : Int) ≤ 59) ∧
    ∃ w2 : Watch, handle_minute_tick ⟨30, 14, 5, 0⟩ ⟨blank, true, 0⟩ = some w2 ∧
      w2.detail_visible = false ∧
      (∀ i ∈ [BOX_TOP_DETAIL, BOX_LINE1, BOX_LINE2, BOX_LINE3, BOX_BIG_HOUR],
        w2.layers i = spec_phrase_layout 14 30 i) ∧
      (∀ (w0 w3 : Watch), show_time ⟨30, 14, 5, 0⟩ w0 = some w3 →
        ∀ i ∈ [BOX_TOP_DETAIL, BOX_LINE1, BOX_LINE2, BOX_LINE3, BOX_BIG_HOUR],
          w2.layers i = w3.layers i) ∧
      w2.layers BOX_BOTTOM_DETAIL = "" ∧ w2.layers BOX_TIME = "" ∧
      w2.layers BOX_AM_PM = "" :=
  ⟨by decide, by decide,
    handle_minute_tick_frame ⟨30, 14, 5, 0⟩ ⟨blank, true, 0⟩ (by decide) (by decide)⟩

/-! ## The tap -/

/-- With `TESTING` false a tap is `show_time` on the toggled flag. -/
theorem tap_handler_eq (t : Tm) (w : Watch) :
    tap_handler t w = show_time t { w with detail_visible := !w.detail_visible } := rfl

/-- The phrase slots named in a list, read off the refinement of `show_time`. -/
theorem show_time_phrase_slots (t : Tm) (w : Watch)
    (hh : 0 ≤ t.tm_hour ∧ t.tm_hour ≤ 23) (hm : 0 ≤ t.tm_min ∧ t.tm_min ≤ 59) :
    ∃ w2 : Watch, show_time t w = some w2 ∧
      w2.detail_visible = w.detail_visible ∧ w2.testing_index = w.testing_index ∧
      ∀ i ∈ [BOX_TOP_DETAIL, BOX_LINE1, BOX_LINE2, BOX_LINE3, BOX_BIG_HOUR],
        w2.layers i = spec_phrase_layout t.tm_hour t.tm_min i := by
  obtain ⟨w2, hs, hd, hi, p0, p1, p2, p3, p4⟩ := show_time_refines_spec t w hh hm
  refine ⟨w2, hs, hd, hi, ?_⟩
  intro i hmem
  simp only [List.mem_cons, List.mem_singleton, List.not_mem_nil, or_false] at hmem
  rcases hmem with rfl | rfl | rfl | rfl | rfl <;> assumption

/-- C11: for every controller state and every valid clock time, `tap_handler`
(with `TESTING` false) negates detail_visible; the frame it shows has
BottomDetail, Time and AmPm filled with the date, time and am/pm texts of the
detail formatter when the new detail_visible is true and has all three empty
when it is false; the phrase slots hold the phrase for the time in both cases. -/
theorem tap_handler_frame (t : Tm) (w : Watch)
    (hh : 0 ≤ t.tm_hour ∧ t.tm_hour ≤ 23) (hm : 0 ≤ t.tm_min ∧ t.tm_min ≤ 59) :
    TESTING = false ∧
    ∃ w2 : Watch, tap_handler t w = some w2 ∧
      w2.detail_visible = (!w.detail_visible) ∧
      (w2.detail_visible = true →
        w2.layers BOX_BOTTOM_DETAIL = strftime 7 "%a %d" t ∧
        w2.layers BOX_TIME = strftime 6 "%l:%M" t ∧
        w2.layers BOX_AM_PM = strftime 3 "%P" t) ∧
      (w2.detail_visible = false →
        w2.layers BOX_BOTTOM_DETAIL = "" ∧ w2.layers BOX_TIME = "" ∧
        w2.layers BOX_AM_PM = "") ∧
      (∀ i ∈ [BOX_TOP_DETAIL, BOX_LINE1, BOX_LINE2, BOX_LINE3, BOX_BIG_HOUR],
        w2.layers i = spec_phrase_layout t.tm_hour t.tm_min i) := by
  refine ⟨rfl, ?_⟩
  rw [tap_handler_eq]
  obtain ⟨w2, hs, hd, -, hp⟩ :=
    show_time_phrase_slots t { w with detail_visible := !w.detail_visible } hh hm
  obtain ⟨word, w3, -, -, -, -, hs3, -, -, -, -, -, hF, hG⟩ :=
    show_time_frame t { w with detail_visible := !w.detail_visible } hh hm
  have e : w3 = w2 := Option.some.inj (hs3.symm.trans hs)
  subst e
  refine ⟨w3, hs, hd, ?_, ?_, hp⟩
  · intro h
    exact hG (hd.symm.trans h)
  · intro h
    exact hF (hd.symm.trans h)

theorem tap_handler_frame_witness :
    ((0 : Int) ≤ 14 ∧ (14 : Int) ≤ 23) ∧ ((0 : Int) ≤ 30 ∧ (30 : Int) ≤ 59) ∧
    TESTING = false ∧
    ∃ w2 : Watch, tap_handler ⟨30, 14, 5, 0⟩ init_watch = some w2 ∧
      w2.detail_visible = (!init_watch.detail_visible) ∧
      (w2.detail_visible = true →
        w2.layers BOX_BOTTOM_DETAIL = strftime 7 "%a %d" ⟨30, 14, 5, 0⟩ ∧
        w2.layers BOX_TIME = strftime 6 "%l:%M" ⟨30, 14, 5, 0⟩ ∧
        w2.layers BOX_AM_PM = strftime 3 "%P" ⟨30, 14, 5, 0⟩) ∧
      (w2.detail_visible = false →
        w2.layers BOX_BOTTOM_DETAIL = "" ∧ w2.layers BOX_TIME = "" ∧
        w2.layers BOX_AM_PM = "") ∧
      (∀ i ∈ [BOX_TOP_DETAIL, BOX_LINE1, BOX_LINE2, BOX_LINE3, BOX_BIG_HOUR],
        w2.layers i = spec_phrase_layout 14 30 i) :=
  ⟨by decide, by decide,
    tap_handler_frame ⟨30, 14, 5, 0⟩ init_watch (by decide) (by decide)⟩

/-- C12: for every controller state s and every valid clock time t, two taps
with the clock reading t both times (with `TESTING` false) bring detail_visible
back to its value in s, and the frame after the second tap agrees on TopDetail,
Line1, Line2, Line3 and BigHour with the frame `show_time` shows for t in s and
in any other state: the phrase slots do not depend on detail_visible. -/
theorem tap_handler_twice (t : Tm) (s : Watch)
    (hh : 0 ≤ t.tm_hour ∧ t.tm_hour ≤ 23) (hm : 0 ≤ t.tm_min ∧ t.tm_min ≤ 59) :
    ∃ (s0 s1 s2 : Watch), show_time t s = some s0 ∧
      tap_handler t s = some s1 ∧ tap_handler t s1 = some s2 ∧
      s1.detail_visible = (!s.detail_visible) ∧
      s2.detail_visible = s.detail_visible ∧
      (∀ i ∈ [BOX_TOP_DETAIL, BOX_LINE1, BOX_LINE2, BOX_LINE3, BOX_BIG_HOUR],
        s2.layers i = s0.layers i ∧ s1.layers i = s0.layers i) ∧
      (∀ (u u2 : Watch), show_time t u = some u2 →
        ∀ i ∈ [BOX_TOP_DETAIL, BOX_LINE1, BOX_LINE2, BOX_LINE3, BOX_BIG_HOUR],
          s2.layers i = u2.layers i) := by
  obtain ⟨s0, h0, -, -, p0⟩ := show_time_phrase_slots t s hh hm
  obtain ⟨s1, h1, d1, -, p1⟩ :=
    show_time_phrase_slots t { s with detail_visible := !s.detail_visible } hh hm
  obtain ⟨s2, h2, d2, -, p2⟩ :=
    show_time_phrase_slots t { s1 with detail_visible := !s1.detail_visible } hh hm
  refine ⟨s0, s1, s2, h0, by rw [tap_handler_eq]; exact h1,
    by rw [tap_handler_eq]; exact h2, d1, ?_, ?_, ?_⟩
  · rw [d2]
    show (!s1.detail_visible) = s.detail_visible
    rw [d1]
    show (!(!s.detail_visible)) = s.detail_visible
    cases s.detail_visible <;> rfl
  · intro i hi
    exact ⟨(p2 i hi).trans (p0 i hi).symm, (p1 i hi).trans (p0 i hi).symm⟩
  · intro u u2 hu i hi
    obtain ⟨u3, h3, -, -, p3⟩ := show_time_phrase_slots t u hh hm
    have e : u3 = u2 := Option.some.inj (h3.symm.trans hu)
    subst e
    exact (p2 i hi).trans (p3 i hi).symm

theorem tap_handler_twice_witness :
    ((0 : Int) ≤ 3 ∧ (3 : Int) ≤ 23) ∧ ((0 : Int) ≤ 11 ∧ (11 : Int) ≤ 59) ∧
    ∃ (s0 s1 s2 : Watch), show_time ⟨11, 3, 5, 0⟩ init_watch = some s0 ∧
      tap_handler ⟨11, 3, 5, 0⟩ init_watch = some s1 ∧
      tap_handler ⟨11, 3, 5, 0⟩ s1 = some s2 ∧
      s1.detail_visible = (!init_watch.detail_visible) ∧
      s2.detail_visible = init_watch.detail_visible ∧
      (∀ i ∈ [BOX_TOP_DETAIL, BOX_LINE1, BOX_LINE2, BOX_LINE3, BOX_BIG_HOUR],
        s2.layers i = s0.layers i ∧ s1.layers i = s0.layers i) ∧
      (∀ (u u2 : Watch), show_time ⟨11, 3, 5, 0⟩ u = some u2 →
        ∀ i ∈ [BOX_TOP_DETAIL, BOX_LINE1, BOX_LINE2, BOX_LINE3, BOX_BIG_HOUR],
          s2.layers i = u2.layers i) :=
  ⟨by decide, by decide,
    tap_handler_twice ⟨11, 3, 5, 0⟩ init_watch (by decide) (by decide)⟩

/-! ## No stale text -/

/-- The layers `show_time` leaves do not depend on the layers it starts from. -/
theorem show_time_layers_indep (t : Tm) (w1 w2 : Watch)
    (hdv : w1.detail_visible = w2.detail_visible) :
    (show_time t w1).map Watch.layers = (show_time t w2).map Watch.layers := by
  simp only [show_time, clear_boxes_eq, hdv]
  cases hour_to_string
    (if quarter_of_minute t.tm_min > 2 then t.tm_hour + 1 else t.tm_hour) <;> rfl

/-- C13: the contents of all eight text boxes after `show_time` depend only on
the time and on detail_visible, never on what the boxes held before: from any
two prior display contents, with the same time and the same detail_visible,
`show_time` leaves the same text in every slot; and every slot it does not
write (TopDetail within the tolerance; BigHour off the hour; Line1, Line3 and
the unused one of BigHour and Line2 on the hour; BottomDetail, Time and AmPm
without detail) shows the empty string. -/
theorem show_time_no_stale_text (t : Tm) (w1 w2 : Watch)
    (hdv : w1.detail_visible = w2.detail_visible)
    (hh : 0 ≤ t.tm_hour ∧ t.tm_hour ≤ 23) (hm : 0 ≤ t.tm_min ∧ t.tm_min ≤ 59) :
    (show_time t w1).map Watch.layers = (show_time t w2).map Watch.layers ∧
    ∃ (word : String) (a b : Watch),
      show_time t w1 = some a ∧ show_time t w2 = some b ∧
      (∀ i : Fin BOX_COUNT, a.layers i = b.layers i) ∧
      hour_to_string (if quarter_of_minute t.tm_min > 2 then t.tm_hour + 1
        else t.tm_hour) = some word ∧
      (¬ abs_int (t.tm_min - quarter_of_minute t.tm_min * 15) > MINUTE_TOLERANCE →
        a.layers BOX_TOP_DETAIL = "") ∧
      (Int.tmod (quarter_of_minute t.tm_min) 4 ≠ 0 → a.layers BOX_BIG_HOUR = "") ∧
      (Int.tmod (quarter_of_minute t.tm_min) 4 = 0 →
        a.layers BOX_LINE1 = "" ∧ a.layers BOX_LINE3 = "" ∧
        (strlen word < 7 → a.layers BOX_LINE2 = "") ∧
        (¬ strlen word < 7 → a.layers BOX_BIG_HOUR = "")) ∧
      (w1.detail_visible = false →
        a.layers BOX_BOTTOM_DETAIL = "" ∧ a.layers BOX_TIME = "" ∧
        a.layers BOX_AM_PM = "") := by
  have hind := show_time_layers_indep t w1 w2 hdv
  refine ⟨hind, ?_⟩
  obtain ⟨word, a, hw, -, -, -, ha, -⟩ := show_time_frame t w1 hh hm
  obtain ⟨-, b, -, -, -, -, hb, -⟩ := show_time_frame t w2 hh hm
  obtain ⟨a2, ha2, -, -, hT, hA, hB, hF, -⟩ := show_time_layers t w1 word hw
  have e : a2 = a := Option.some.inj (ha2.symm.trans ha)
  subst e
  refine ⟨word, a2, b, ha, hb, ?_, hw, ?_, ?_, ?_, hF⟩
  · intro i
    rw [ha, hb] at hind
    exact congrFun (Option.some.inj hind) i
  · intro hn
    have h3 := abs_int_gt_tolerance (t.tm_min - quarter_of_minute t.tm_min * 15)
    have hn2 : ¬ 3 < abs_int (t.tm_min - quarter_of_minute t.tm_min * 15) := hn
    rw [hT, if_neg (fun h => hn2 (h3.2 (Or.inl h))),
      if_neg (fun h => hn2 (h3.2 (Or.inr h)))]
  · intro hq
    exact (hA hq).2.2.2
  · intro hq
    obtain ⟨x, y, z, u⟩ := hB hq
    exact ⟨x, y, fun hl => (z hl).2, fun hl => (u hl).2⟩

theorem show_time_no_stale_text_witness :
    (⟨fun _ => "stale", false, 0⟩ : Watch).detail_visible = init_watch.detail_visible ∧
    ((0 : Int) ≤ 3 ∧ (3 : Int) ≤ 23) ∧ ((0 : Int) ≤ 2 ∧ (2 : Int) ≤ 59) ∧
    (show_time ⟨2, 3, 5, 0⟩ ⟨fun _ => "stale", false, 0⟩).map Watch.layers =
      (show_time ⟨2, 3, 5, 0⟩ init_watch).map Watch.layers ∧
    ∃ (word : String) (a b : Watch),
      show_time ⟨2, 3, 5, 0⟩ ⟨fun _ => "stale", false, 0⟩ = some a ∧
      show_time ⟨2, 3, 5, 0⟩ init_watch = some b ∧
      (∀ i : Fin BOX_COUNT, a.layers i = b.layers i) ∧
      hour_to_string (if quarter_of_minute 2 > 2 then (3 : Int) + 1 else 3) = some word ∧
      (¬ abs_int ((2 : Int) - quarter_of_minute 2 * 15) > MINUTE_TOLERANCE →
        a.layers BOX_TOP_DETAIL = "") ∧
      (Int.tmod (quarter_of_minute 2) 4 ≠ 0 → a.layers BOX_BIG_HOUR = "") ∧
      (Int.tmod (quarter_of_minute 2) 4 = 0 →
        a.layers BOX_LINE1 = "" ∧ a.layers BOX_LINE3 = "" ∧
        (strlen word < 7 → a.layers BOX_LINE2 = "") ∧
        (¬ strlen word < 7 → a.layers BOX_BIG_HOUR = "")) ∧
      ((⟨fun _ => "stale", false, 0⟩ : Watch).detail_visible = false →
        a.layers BOX_BOTTOM_DETAIL = "" ∧ a.layers BOX_TIME = "" ∧
        a.layers BOX_AM_PM = "") :=
  ⟨rfl, by decide, by decide,
    show_time_no_stale_text ⟨2, 3, 5, 0⟩ ⟨fun _ => "stale", false, 0⟩ init_watch rfl
      (by decide) (by decide)⟩

/-! ## The detail texts -/

/-- Two zero-padded digits of a minute, as `%M` prints it. -/
theorem strftime_minute_part (m : Int) (h0 : 0 ≤ m) (h1 : m ≤ 59) :
    two_columns '0' m =
      String.mk [Nat.digitChar (m / 10).toNat, Nat.digitChar (m % 10).toNat] := by
  lift m to ℕ using h0
  have : m ≤ 59 := by omega
  interval_cases m <;> rfl

/-- Two space-padded columns of the 12-hour hour, as `%l` prints it. -/
theorem strftime_hour_part (h : Int) (h0 : 0 ≤ h) (h1 : h ≤ 23) :
    two_columns ' ' (if Int.tmod h 12 = 0 then 12 else Int.tmod h 12) =
      String.mk [ if (h + 11) % 12 + 1 < 10 then ' '
                  else Nat.digitChar (((h + 11) % 12 + 1) / 10).toNat,
                  Nat.digitChar (((h + 11) % 12 + 1) % 10).toNat ] := by
  lift h to ℕ using h0
  have : h ≤ 23 := by omega
  interval_cases h <;> rfl

theorem strftime_time_eq (t : Tm)
    (hh : 0 ≤ t.tm_hour ∧ t.tm_hour ≤ 23) (hm : 0 ≤ t.tm_min ∧ t.tm_min ≤ 59) :
    strftime 6 "%l:%M" t = spec_time_text t.tm_hour t.tm_min := by
  have e : strftime_expand t "%l:%M".data =
      two_columns ' ' (if Int.tmod t.tm_hour 12 = 0 then 12 else Int.tmod t.tm_hour 12) ++
        (String.mk [':'] ++ (two_columns '0' t.tm_min ++ "")) := rfl
  unfold strftime
  simp only [e, strftime_minute_part _ hm.1 hm.2, strftime_hour_part _ hh.1 hh.2]
  rfl

theorem strftime_am_pm_eq (t : Tm) :
    strftime 3 "%P" t = if t.tm_hour < 12 then "am" else "pm" := by
  have e : strftime_expand t "%P".data =
      (if t.tm_hour < 12 then "am" else "pm") ++ "" := rfl
  unfold strftime
  by_cases h : t.tm_hour < 12
  · simp only [e, if_pos h]
    decide
  · simp only [e, if_neg h]
    decide

/-- The date text `show_time` formats on a Sunday the 5th. -/
theorem strftime_date_sunday_5 (t : Tm) (h0 : t.tm_wday = 0) (h5 : t.tm_mday = 5) :
    strftime 7 "%a %d" t = "Sun 05" := by
  have e : strftime_expand t "%a %d".data =
      strftime_conv 'a' t ++ (String.mk [' '] ++ (strftime_conv 'd' t ++ "")) := rfl
  have a : strftime_conv 'a' t =
      if 0 ≤ t.tm_wday then weekday_abbrev.getD t.tm_wday.toNat "?" else "?" := rfl
  have d : strftime_conv 'd' t = two_columns '0' t.tm_mday := rfl
  unfold strftime
  simp only [e, a, d, h0, h5]
  decide

/-- C14: with detail_visible true, for every hour h in 0..23 and minute m in
0..59, `show_time` sets Time to a 5-character string made of the 12-hour hour
((h + 11) mod 12) + 1 right-aligned in two columns with a space as padding, a
colon, and m as two zero-padded digits, and sets AmPm to "am" when h is at most
11 and to "pm" when h is at least 12; 09:07 gives " 9:07" and "am", 14:30
gives " 2:30" and "pm", and Sunday the 5th gives BottomDetail "Sun 05". -/
theorem show_time_detail_texts (t : Tm) (w : Watch) (hd : w.detail_visible = true)
    (hh : 0 ≤ t.tm_hour ∧ t.tm_hour ≤ 23) (hm : 0 ≤ t.tm_min ∧ t.tm_min ≤ 59) :
    ∃ w2 : Watch, show_time t w = some w2 ∧
      w2.layers BOX_TIME = spec_time_text t.tm_hour t.tm_min ∧
      (w2.layers BOX_TIME).length = 5 ∧
      w2.layers BOX_AM_PM = spec_am_pm_text t.tm_hour ∧
      (t.tm_hour ≤ 11 → w2.layers BOX_AM_PM = "am") ∧
      (12 ≤ t.tm_hour → w2.layers BOX_AM_PM = "pm") ∧
      (t.tm_hour = 9 → t.tm_min = 7 →
        w2.layers BOX_TIME = " 9:07" ∧ w2.layers BOX_AM_PM = "am") ∧
      (t.tm_hour = 14 → t.tm_min = 30 →
        w2.layers BOX_TIME = " 2:30" ∧ w2.layers BOX_AM_PM = "pm") ∧
      (t.tm_wday = 0 → t.tm_mday = 5 → w2.layers BOX_BOTTOM_DETAIL = "Sun 05") := by
  obtain ⟨word, w2, -, -, -, -, hs, -, -, -, -, -, -, hG⟩ := show_time_frame t w hh hm
  obtain ⟨g1, g2, g3⟩ := hG hd
  rw [strftime_time_eq t hh hm] at g2
  rw [strftime_am_pm_eq t] at g3
  have ham : t.tm_hour ≤ 11 → w2.layers BOX_AM_PM = "am" := by
    intro h; rw [g3, if_pos (by omega)]
  have hpm : 12 ≤ t.tm_hour → w2.layers BOX_AM_PM = "pm" := by
    intro h; rw [g3, if_neg (by omega)]
  refine ⟨w2, hs, g2, by rw [g2]; rfl, ?_, ham, hpm, ?_, ?_, ?_⟩
  · rw [g3]
    unfold spec_am_pm_text
    split_ifs <;> first | rfl | omega
  · intro h9 h7
    refine ⟨?_, ham (by omega)⟩
    rw [g2, h9, h7]
    rfl
  · intro h14 h30
    refine ⟨?_, hpm (by omega)⟩
    rw [g2, h14, h30]
    rfl
  · intro h0 h5
    rw [g1]
    exact strftime_date_sunday_5 t h0 h5

theorem show_time_detail_texts_witness :
    (⟨blank, true, 0⟩ : Watch).detail_visible = true ∧
    ((0 : Int) ≤ 14 ∧ (14 : Int) ≤ 23) ∧ ((0 : Int) ≤ 30 ∧ (30 : Int) ≤ 59) ∧
    ∃ w2 : Watch, show_time ⟨30, 14, 5, 0⟩ ⟨blank, true, 0⟩ = some w2 ∧
      w2.layers BOX_TIME = spec_time_text 14 30 ∧
      (w2.layers BOX_TIME).length = 5 ∧
      w2.layers BOX_AM_PM = spec_am_pm_text 14 ∧
      ((14 : Int) ≤ 11 → w2.layers BOX_AM_PM = "am") ∧
      ((12 : Int) ≤ 14 → w2.layers BOX_AM_PM = "pm") ∧
      ((14 : Int) = 9 → (30 : Int) = 7 →
        w2.layers BOX_TIME = " 9:07" ∧ w2.layers BOX_AM_PM = "am") ∧
      ((14 : Int) = 14 → (30 : Int) = 30 →
        w2.layers BOX_TIME = " 2:30" ∧ w2.layers BOX_AM_PM = "pm") ∧
      ((0 : Int) = 0 → (5 : Int) = 5 → w2.layers BOX_BOTTOM_DETAIL = "Sun 05") :=
  ⟨rfl, by decide, by decide,
    show_time_detail_texts ⟨30, 14, 5, 0⟩ ⟨blank, true, 0⟩ rfl (by decide) (by decide)⟩

/-! ## The table of boxes -/

/-- C15: the static table `boxes` has exactly eight entries, indexed in the order
TopDetail, Line1, Line2, Line3, BigHour, BottomDetail, Time, AmPm, and the
rectangle, font and alignment of each entry are those of the geometry table of
the specification. -/
theorem boxes_table :
    boxes.length = 8 ∧ boxes.length = BOX_COUNT ∧
    [BOX_TOP_DETAIL, BOX_LINE1, BOX_LINE2, BOX_LINE3, BOX_BIG_HOUR,
      BOX_BOTTOM_DETAIL, BOX_TIME, BOX_AM_PM] = List.finRange BOX_COUNT ∧
    boxes[BOX_TOP_DETAIL.val]? = some ⟨0, 0, 144, 28, FONT_SMALL, .GTextAlignmentRight⟩ ∧
    boxes[BOX_LINE1.val]? = some ⟨0, 20, 144, 48, FONT_LARGE, .GTextAlignmentLeft⟩ ∧
    boxes[BOX_LINE2.val]? = some ⟨0, 54, 144, 48, FONT_LARGE, .GTextAlignmentCenter⟩ ∧
    boxes[BOX_LINE3.val]? = some ⟨0, 92, 144, 48, FONT_LARGE, .GTextAlignmentRight⟩ ∧
    boxes[BOX_BIG_HOUR.val]? = some ⟨0, 40, 144, 60, FONT_HUGE, .GTextAlignmentCenter⟩ ∧
    boxes[BOX_BOTTOM_DETAIL.val]? =
      some ⟨0, 148, 90, 20, FONT_DETAIL, .GTextAlignmentLeft⟩ ∧
    boxes[BOX_TIME.val]? = some ⟨72, 148, 54, 20, FONT_DETAIL, .GTextAlignmentRight⟩ ∧
    boxes[BOX_AM_PM.val]? = some ⟨128, 154, 16, 14, FONT_TINY, .GTextAlignmentLeft⟩ ∧
    [FONT_HUGE, FONT_LARGE, FONT_MEDIUM, FONT_SMALL, FONT_DETAIL, FONT_TINY] =
      List.range FONT_COUNT := by
  decide

/-! ## Quarter and offset -/

/-- C16: for every minute in 0..59 the quarter q = (minute + 7) / 15 lies in
0..4 and the offset minute - 15 * q lies in -7..7; so 15 * q is the one multiple
of 15 nearest to the minute: every other multiple is strictly farther away. -/
theorem quarter_offset_bounds (m : Int) (h0 : 0 ≤ m) (h59 : m ≤ 59) :
    quarter_of_minute m = (m + 7) / 15 ∧
    (0 ≤ quarter_of_minute m ∧ quarter_of_minute m ≤ 4) ∧
    (-7 ≤ m - 15 * quarter_of_minute m ∧ m - 15 * quarter_of_minute m ≤ 7) ∧
    (∀ k : Int, k ≠ quarter_of_minute m →
      |m - 15 * quarter_of_minute m| < |m - 15 * k|) := by
  have hq := quarter_of_minute_eq m h0
  rw [hq]
  refine ⟨rfl, by omega, by omega, ?_⟩
  intro k hk
  rcases abs_cases (m - 15 * ((m + 7) / 15)) with ⟨e1, _⟩ | ⟨e1, _⟩ <;>
    rcases abs_cases (m - 15 * k) with ⟨e2, _⟩ | ⟨e2, _⟩ <;>
    rw [e1, e2] <;> omega

theorem quarter_offset_bounds_witness :
    (0 : Int) ≤ 52 ∧ (52 : Int) ≤ 59 ∧
    quarter_of_minute 52 = ((52 : Int) + 7) / 15 ∧
    (0 ≤ quarter_of_minute 52 ∧ quarter_of_minute 52 ≤ 4) ∧
    (-7 ≤ (52 : Int) - 15 * quarter_of_minute 52 ∧
      (52 : Int) - 15 * quarter_of_minute 52 ≤ 7) ∧
    (∀ k : Int, k ≠ quarter_of_minute 52 →
      |(52 : Int) - 15 * quarter_of_minute 52| < |(52 : Int) - 15 * k|) :=
  ⟨by decide, by decide, quarter_offset_bounds 52 (by decide) (by decide)⟩

/-! ## The testing schedule -/

/-- C17: with `MINUTE_TOLERANCE` = 3 the schedule `testing_minutes` is exactly
the 13 values 0, 3, 4, 11, 15, 19, 26, 30, 34, 41, 45, 49, 56 in that order,
and fed to `show_time` at `testing_hour` 0 it covers the quarter and tolerance
logic: for each reduced quarter 0, 1, 2, 3 and each qualifier outcome (empty,
"gone", "getting on for") some schedule minute produces that combination. -/
theorem testing_minutes_cover (w : Watch) (mday wday : Int) :
    MINUTE_TOLERANCE = 3 ∧ testing_hour = 0 ∧
    testing_minutes = [0, 3, 4, 11, 15, 19, 26, 30, 34, 41, 45, 49, 56] ∧
    testing_minutes.length = 13 ∧
    ∀ r ∈ [(0 : Int), 1, 2, 3], ∀ s ∈ ["", "gone", "getting on for"],
      ∃ m ∈ testing_minutes, Int.tmod (quarter_of_minute m) 4 = r ∧
        ∃ w2 : Watch, show_time ⟨m, testing_hour, mday, wday⟩ w = some w2 ∧
          w2.layers BOX_TOP_DETAIL = s := by
  refine ⟨rfl, rfl, rfl, rfl, ?_⟩
  have pick : ∀ (m r : Int) (s : String), m ∈ testing_minutes → 0 ≤ m → m ≤ 59 →
      Int.tmod (quarter_of_minute m) 4 = r →
      (if m - (m + 7) / 15 * 15 < -3 then "getting on for"
        else if m - (m + 7) / 15 * 15 > 3 then "gone" else "") = s →
      ∃ m ∈ testing_minutes, Int.tmod (quarter_of_minute m) 4 = r ∧
        ∃ w2 : Watch, show_time ⟨m, testing_hour, mday, wday⟩ w = some w2 ∧
          w2.layers BOX_TOP_DETAIL = s := by
    intro m r s hmem h0 h59 hr hs
    have hh : (0 : Int) ≤ (⟨m, testing_hour, mday, wday⟩ : Tm).tm_hour ∧
        (⟨m, testing_hour, mday, wday⟩ : Tm).tm_hour ≤ 23 := by
      show (0 : Int) ≤ testing_hour ∧ testing_hour ≤ 23
      decide
    obtain ⟨word, w2, -, -, -, -, hst, -, -, hT, -⟩ :=
      show_time_frame ⟨m, testing_hour, mday, wday⟩ w hh ⟨h0, h59⟩
    exact ⟨m, hmem, hr, w2, hst, hT.trans hs⟩
  intro r hr s hs
  simp only [List.mem_cons, List.mem_singleton, List.not_mem_nil, or_false] at hr hs
  rcases hr with rfl | rfl | rfl | rfl <;> rcases hs with rfl | rfl | rfl
  · exact pick 0 _ _ (by decide) (by decide) (by decide) (by decide) (by decide)
  · exact pick 4 _ _ (by decide) (by decide) (by decide) (by decide) (by decide)
  · exact pick 56 _ _ (by decide) (by decide) (by decide) (by decide) (by decide)
  · exact pick 15 _ _ (by decide) (by decide) (by decide) (by decide) (by decide)
  · exact pick 19 _ _ (by decide) (by decide) (by decide) (by decide) (by decide)
  · exact pick 11 _ _ (by decide) (by decide) (by decide) (by decide) (by decide)
  · exact pick 30 _ _ (by decide) (by decide) (by decide) (by decide) (by decide)
  · exact pick 34 _ _ (by decide) (by decide) (by decide) (by decide) (by decide)
  · exact pick 26 _ _ (by decide) (by decide) (by decide) (by decide) (by decide)
  · exact pick 45 _ _ (by decide) (by decide) (by decide) (by decide) (by decide)
  · exact pick 49 _ _ (by decide) (by decide) (by decide) (by decide) (by decide)
  · exact pick 41 _ _ (by decide) (by decide) (by decide) (by decide) (by decide)

/-! ## Periodicity and the hour boundary -/

/-- The phrase layout of the specification has period 12 in the hour. -/
theorem spec_phrase_layout_add_twelve (h m : Int) :
    spec_phrase_layout (h + 12) m = spec_phrase_layout h m := by
  have e : (if (m + 7) / 15 = 3 ∨ (m + 7) / 15 = 4 then h + 12 + 1 else h + 12) % 12 =
      (if (m + 7) / 15 = 3 ∨ (m + 7) / 15 = 4 then h + 1 else h) % 12 := by
    split_ifs <;> omega
  simp only [spec_phrase_layout, e]

/-- C18: the phrase has a 12-hour period: for every hour h in 0..11 and minute
in 0..59, `show_time` produces the same TopDetail, Line1, Line2, Line3 and
BigHour for (h, minute) and for (h + 12, minute). -/
theorem show_time_twelve_hour_period (t : Tm) (w1 w2 : Watch) (mday2 wday2 : Int)
    (hh : 0 ≤ t.tm_hour ∧ t.tm_hour ≤ 11) (hm : 0 ≤ t.tm_min ∧ t.tm_min ≤ 59) :
    ∃ (a b : Watch), show_time t w1 = some a ∧
      show_time ⟨t.tm_min, t.tm_hour + 12, mday2, wday2⟩ w2 = some b ∧
      ∀ i ∈ [BOX_TOP_DETAIL, BOX_LINE1, BOX_LINE2, BOX_LINE3, BOX_BIG_HOUR],
        a.layers i = b.layers i := by
  obtain ⟨a, ha, -, -, pa⟩ := show_time_phrase_slots t w1 ⟨hh.1, by omega⟩ hm
  have hh2 : 0 ≤ (⟨t.tm_min, t.tm_hour + 12, mday2, wday2⟩ : Tm).tm_hour ∧
      (⟨t.tm_min, t.tm_hour + 12, mday2, wday2⟩ : Tm).tm_hour ≤ 23 := by
    show 0 ≤ t.tm_hour + 12 ∧ t.tm_hour + 12 ≤ 23
    omega
  obtain ⟨b, hb, -, -, pb⟩ :=
    show_time_phrase_slots ⟨t.tm_min, t.tm_hour + 12, mday2, wday2⟩ w2 hh2 hm
  refine ⟨a, b, ha, hb, ?_⟩
  intro i hi
  rw [pa i hi, pb i hi]
  exact (congrFun (spec_phrase_layout_add_twelve t.tm_hour t.tm_min) i).symm

theorem show_time_twelve_hour_period_witness :
    ((0 : Int) ≤ 2 ∧ (2 : Int) ≤ 11) ∧ ((0 : Int) ≤ 30 ∧ (30 : Int) ≤ 59) ∧
    ∃ (a b : Watch), show_time ⟨30, 2, 5, 0⟩ init_watch = some a ∧
      show_time ⟨30, 2 + 12, 5, 0⟩ ⟨blank, true, 0⟩ = some b ∧
      ∀ i ∈ [BOX_TOP_DETAIL, BOX_LINE1, BOX_LINE2, BOX_LINE3, BOX_BIG_HOUR],
        a.layers i = b.layers i :=
  ⟨by decide, by decide,
    show_time_twelve_hour_period ⟨30, 2, 5, 0⟩ init_watch ⟨blank, true, 0⟩ 5 0
      (by decide) (by decide)⟩

/-- C19: the displayed hour does not jump at the hour boundary: for every hour h
in 0..23, every minute m in 53..59 and every minute m2 in 0..7, `show_time`
shows for (h, m) the same hour word in the same slot, with Line1 and Line3
empty, as it shows for ((h + 1) mod 24, m2); among the phrase slots only
TopDetail may differ. -/
theorem show_time_hour_boundary (h m m2 : Int) (w1 w2 : Watch)
    (mday1 wday1 mday2 wday2 : Int)
    (hh : 0 ≤ h ∧ h ≤ 23) (hm : 53 ≤ m ∧ m ≤ 59) (hm2 : 0 ≤ m2 ∧ m2 ≤ 7) :
    ∃ (word : String) (a b : Watch),
      show_time ⟨m, h, mday1, wday1⟩ w1 = some a ∧
      show_time ⟨m2, (h + 1) % 24, mday2, wday2⟩ w2 = some b ∧
      hour_strings[((h + 1) % 12).toNat]? = some word ∧
      ((a.layers BOX_BIG_HOUR = word ∧ b.layers BOX_BIG_HOUR = word ∧
          a.layers BOX_LINE2 = "" ∧ b.layers BOX_LINE2 = "") ∨
        (a.layers BOX_LINE2 = word ∧ b.layers BOX_LINE2 = word ∧
          a.layers BOX_BIG_HOUR = "" ∧ b.layers BOX_BIG_HOUR = "")) ∧
      a.layers BOX_LINE1 = "" ∧ a.layers BOX_LINE3 = "" ∧
      b.layers BOX_LINE1 = "" ∧ b.layers BOX_LINE3 = "" ∧
      (∀ i ∈ [BOX_LINE1, BOX_LINE2, BOX_LINE3, BOX_BIG_HOUR],
        a.layers i = b.layers i) := by
  have hm1 : 0 ≤ (⟨m, h, mday1, wday1⟩ : Tm).tm_min ∧
      (⟨m, h, mday1, wday1⟩ : Tm).tm_min ≤ 59 := by
    show 0 ≤ m ∧ m ≤ 59
    omega
  obtain ⟨word, a, -, htab, -, -, ha, -, -, -, -, hB, -, -⟩ :=
    show_time_frame ⟨m, h, mday1, wday1⟩ w1 hh hm1
  have hh2 : 0 ≤ (⟨m2, (h + 1) % 24, mday2, wday2⟩ : Tm).tm_hour ∧
      (⟨m2, (h + 1) % 24, mday2, wday2⟩ : Tm).tm_hour ≤ 23 := by
    show 0 ≤ (h + 1) % 24 ∧ (h + 1) % 24 ≤ 23
    omega
  have hm3 : 0 ≤ (⟨m2, (h + 1) % 24, mday2, wday2⟩ : Tm).tm_min ∧
      (⟨m2, (h + 1) % 24, mday2, wday2⟩ : Tm).tm_min ≤ 59 := by
    show 0 ≤ m2 ∧ m2 ≤ 59
    omega
  obtain ⟨word2, b, -, htab2, -, -, hb, -, -, -, -, hB2, -, -⟩ :=
    show_time_frame ⟨m2, (h + 1) % 24, mday2, wday2⟩ w2 hh2 hm3
  dsimp only at htab htab2 hB hB2
  rw [if_pos (by omega)] at htab
  rw [if_neg (by omega)] at htab2
  have hidx : ((h + 1) % 24 % 12).toNat = ((h + 1) % 12).toNat := by
    congr 1
    omega
  rw [hidx] at htab2
  have hword : word2 = word := Option.some.inj (htab2.symm.trans htab)
  subst hword
  obtain ⟨a1, a3, aB, a2⟩ := hB (by omega)
  obtain ⟨b1, b3, bB, b2⟩ := hB2 (by omega)
  refine ⟨word2, a, b, ha, hb, htab, Or.inl ⟨aB, bB, a2, b2⟩, a1, a3, b1, b3, ?_⟩
  intro i hi
  simp only [List.mem_cons, List.mem_singleton, List.not_mem_nil, or_false] at hi
  rcases hi with rfl | rfl | rfl | rfl
  · rw [a1, b1]
  · rw [a2, b2]
  · rw [a3, b3]
  · rw [aB, bB]

theorem show_time_hour_boundary_witness :
    ((0 : Int) ≤ 23 ∧ (23 : Int) ≤ 23) ∧ ((53 : Int) ≤ 56 ∧ (56 : Int) ≤ 59) ∧
    ((0 : Int) ≤ 4 ∧ (4 : Int) ≤ 7) ∧
    ∃ (word : String) (a b : Watch),
      show_time ⟨56, 23, 31, 6⟩ init_watch = some a ∧
      show_time ⟨4, ((23 : Int) + 1) % 24, 1, 0⟩ init_watch = some b ∧
      hour_strings[(((23 : Int) + 1) % 12).toNat]? = some word ∧
      ((a.layers BOX_BIG_HOUR = word ∧ b.layers BOX_BIG_HOUR = word ∧
          a.layers BOX_LINE2 = "" ∧ b.layers BOX_LINE2 = "") ∨
        (a.layers BOX_LINE2 = word ∧ b.layers BOX_LINE2 = word ∧
          a.layers BOX_BIG_HOUR = "" ∧ b.layers BOX_BIG_HOUR = "")) ∧
      a.layers BOX_LINE1 = "" ∧ a.layers BOX_LINE3 = "" ∧
      b.layers BOX_LINE1 = "" ∧ b.layers BOX_LINE3 = "" ∧
      (∀ i ∈ [BOX_LINE1, BOX_LINE2, BOX_LINE3, BOX_BIG_HOUR],
        a.layers i = b.layers i) :=
  ⟨by decide, by decide, by decide,
    show_time_hour_boundary 23 56 4 init_watch init_watch 31 6 1 0
      (by decide) (by decide) (by decide)⟩

end FuzzyPlus
